import Mathlib

set_option maxHeartbeats 1000000

/-!
Verification development for the "Gemini Code Autocomplete" repository.

The repository has two variants of the same thin completion client:

* a standalone React demo (`src/App.tsx`, `src/components/Editor.tsx`, and the
  service module `src/unnamed/part_000`, i.e. `services/geminiService.ts`,
  plus a second service copy appended to `src/components/Editor.tsx`), and
* an embedded Acode editor plugin (`src/main.js`).

This file gives a shallow embedding of the state and the operations of both
variants.  JavaScript string operations (`trim`, `trimStart`, `split('\n')[0]`,
`substring(0, 50)`, `includes`) are embedded as structurally recursive
functions on the character list of a `String`, so that every definition
evaluates by `decide` on concrete inputs.  The event-driven control flow
around the debounce timer, the `AbortController`s and the promise resolution
is embedded as an explicit step function over a state record, with an event
type for the points where the event loop can interleave (a text change, the
debounce timer firing, the transport call resolving or rejecting).
-/

namespace Autocomplete

/-! ## JavaScript string primitives, embedded over `String.data` -/

/-- Drop leading whitespace characters from a character list
(JS `String.prototype.trimStart` on the ASCII inputs used here). -/
def dropLeadingWs : List Char → List Char
  | [] => []
  | c :: cs => if c.isWhitespace then dropLeadingWs cs else c :: cs

/-- JS `s.trimStart()`. -/
def jsTrimStart (s : String) : String := ⟨dropLeadingWs s.data⟩

/-- JS `s.trimEnd()`: drop trailing whitespace. -/
def jsTrimEnd (s : String) : String := ⟨(dropLeadingWs s.data.reverse).reverse⟩

/-- JS `s.trim()`: drop whitespace at both ends. -/
def jsTrim (s : String) : String := ⟨(dropLeadingWs (dropLeadingWs s.data).reverse).reverse⟩

/-- Characters of the first line (JS `s.split('\n')[0]`). -/
def firstLineChars : List Char → List Char
  | [] => []
  | c :: cs => if c = '\n' then [] else c :: firstLineChars cs

/-- JS `s.split('\n')[0]`. -/
def firstLine (s : String) : String := ⟨firstLineChars s.data⟩

/-- JS `s.substring(0, n)`. -/
def jsSubstringTo (s : String) (n : Nat) : String := ⟨s.data.take n⟩

/-- Does `pat` occur at the head of `l`? (helper for JS `includes`). -/
def charsStartWith : List Char → List Char → Bool
  | [], _ => true
  | _ :: _, [] => false
  | p :: ps, c :: cs => p == c && charsStartWith ps cs

/-- Does `pat` occur anywhere in `l`? (helper for JS `includes`). -/
def charsContain (pat : List Char) : List Char → Bool
  | [] => pat.isEmpty
  | c :: cs => charsStartWith pat (c :: cs) || charsContain pat cs

/-- JS `s.includes(pat)`. -/
def jsIncludes (s pat : String) : Bool := charsContain pat.data s.data

/-! ## Completion Client response handling (claim C3)

Three client copies exist in the repository and they disagree:

* `src/unnamed/part_000` (`services/geminiService.ts`, the module imported by
  `App.tsx`): `const text = response.text?.trimStart() ?? ''; if (!text) return ''; return text;`
* the second copy appended to `src/components/Editor.tsx`:
  `const text = response.text; return text ? text.trim() : '';`
* `src/main.js` `#getCodeSuggestion` tail:
  `if (signal.aborted) return ''; const text = response.text; return text || '';`

Each is embedded as a function of the optional `response.text` field.  -/

/-- `services/geminiService.ts` (src/unnamed/part_000) response handling:
left-trim only, absent text becomes the empty string. -/
def serviceResponseText (respText : Option String) : String :=
  let text := match respText with
    | none => ""
    | some t => jsTrimStart t
  if text = "" then "" else text

/-- Second service copy (appended to `src/components/Editor.tsx`):
full trim, absent or empty text becomes the empty string. -/
def editorServiceResponseText (respText : Option String) : String :=
  match respText with
  | none => ""
  | some t => if t = "" then "" else jsTrim t

/-- `src/main.js` `#getCodeSuggestion` response handling: no trimming at all;
empty on an aborted signal or an absent text field (`text || ''`). -/
def embeddedResponseText (aborted : Bool) (respText : Option String) : String :=
  if aborted then ""
  else match respText with
    | none => ""
    | some t => if t = "" then "" else t

/-! ## Completion candidate construction (claim C7), from `src/main.js` lines 124-129 -/

/-- A completion candidate as returned to Acode
(`{caption, value, score, meta}`). -/
structure Candidate where
  caption : String
  value : String
  score : Nat
  meta : String
deriving DecidableEq, Repr

/-- Candidate built by `#provideCompletions` from a non-empty suggestion:
`caption: suggestion.split('\n')[0].substring(0, 50) + '...'`,
`value: suggestion`, `score: 1000`, `meta: "Gemini AI"`. -/
def mkCandidate (suggestion : String) : Candidate :=
  { caption := jsSubstringTo (firstLine suggestion) 50 ++ "..."
  , value := suggestion
  , score := 1000
  , meta := "Gemini AI" }

/-! ## Error mapping (claim C8) -/

/-- Failure mapping of both standalone client copies (`catch` blocks of
`getCodeSuggestions`): a message containing "API key not valid" is rewritten
to a fixed invalid-credential message, every other failure to a fixed generic
message.  `isErrorInstance` models the JS `error instanceof Error` test. -/
def standaloneMapError (isErrorInstance : Bool) (msg : String) : String :=
  if isErrorInstance && jsIncludes msg "API key not valid" then
    "Invalid API Key. Please check your configuration."
  else
    "Failed to get suggestions from Gemini."

/-- Toast raised by the `catch` block of `#provideCompletions` in
`src/main.js`: nothing for an `AbortError`; otherwise the error message,
rewritten only when it contains "API key not valid", shown with the
"Gemini Error: " heading.  Note the raw message is kept in every other case. -/
def embeddedErrorToast (name msg : String) : Option String :=
  if name == "AbortError" then none
  else
    let errorMessage :=
      if jsIncludes msg "API key not valid" then
        "Invalid API Key. Please check your plugin settings."
      else msg
    some ("Gemini Error: " ++ errorMessage)

/-! ## Claims C3, C7, C8: pure response-handling facts -/

/-- C3 counterexample: the claim states the embedded variant's client trims
leading whitespace (only) and the standalone variant's client trims both
ends.  On the response text " x " the embedded client (`main.js`
`#getCodeSuggestion`) returns " x " unchanged, not the left-trimmed "x ";
and the standalone `services/geminiService.ts` client returns the
left-trimmed "x ", not the fully trimmed "x". -/
theorem c3_counterexample :
    embeddedResponseText false (some " x ") = " x " ∧
    jsTrimStart " x " = "x " ∧
    (" x " : String) ≠ "x " ∧
    serviceResponseText (some " x ") = "x " ∧
    jsTrim " x " = "x" ∧
    ("x " : String) ≠ "x" := by decide

/-- C3 (amended): the `services/geminiService.ts` standalone client copy
returns the response text with leading whitespace only trimmed; the second
standalone copy (appended to `Editor.tsx`) returns it fully trimmed; the
embedded client returns it untrimmed, and empty on an aborted signal.  All
three return the empty string for an absent text field. -/
theorem c3_trim_behavior (t : String) :
    serviceResponseText (some t) = jsTrimStart t ∧
    serviceResponseText none = "" ∧
    editorServiceResponseText (some t) = jsTrim t ∧
    editorServiceResponseText none = "" ∧
    embeddedResponseText false (some t) = t ∧
    embeddedResponseText true (some t) = "" ∧
    embeddedResponseText false none = "" := by
  refine ⟨?_, rfl, ?_, rfl, ?_, rfl, rfl⟩
  · by_cases h : jsTrimStart t = "" <;> simp [serviceResponseText, h]
  · by_cases h : t = ""
    · subst h; rfl
    · simp [editorServiceResponseText, h]
  · by_cases h : t = "" <;> simp [embeddedResponseText, h]

/-- C7 counterexample: the claim states the ellipsis marker is appended only
when the first line exceeds 50 characters.  For the three-character
suggestion "foo" the candidate caption is "foo...": the marker is appended
even though the first line is not longer than 50 characters. -/
theorem c7_counterexample :
    (firstLine "foo").data.length ≤ 50 ∧
    (mkCandidate "foo").caption = "foo..." ∧
    (mkCandidate "foo").caption ≠ firstLine "foo" := by decide

/-- C7 (amended): every candidate carries as caption the first line of the
suggestion truncated to 50 characters with the ellipsis marker appended
unconditionally (also when the first line is 50 characters or shorter), the
full suggestion as insertion value, the fixed score 1000, and the source
label "Gemini AI". -/
theorem c7_candidate_shape (s : String) :
    (mkCandidate s).caption = jsSubstringTo (firstLine s) 50 ++ "..." ∧
    (mkCandidate s).value = s ∧
    (mkCandidate s).score = 1000 ∧
    (mkCandidate s).meta = "Gemini AI" ∧
    ((firstLine s).data.length ≤ 50 →
      (mkCandidate s).caption = firstLine s ++ "...") := by
  refine ⟨rfl, rfl, rfl, rfl, fun h => ?_⟩
  show String.mk ((firstLineChars s.data).take 50) ++ "..." = String.mk (firstLineChars s.data) ++ "..."
  have : (firstLineChars s.data).take 50 = firstLineChars s.data :=
    List.take_of_length_le h
  rw [this]

/-- Witness for C7 (amended) at the concrete suggestion
"console.log(name);", whose single line is at most 50 characters. -/
theorem c7_candidate_shape_witness :
    (mkCandidate "console.log(name);").caption = firstLine "console.log(name);" ++ "..." :=
  (c7_candidate_shape "console.log(name);").2.2.2.2 (by decide)

/-- C8 counterexample: the claim states every failure other than the
credential rejection is surfaced with a generic sanitized message.  In the
embedded variant a transport failure with message
"getaddrinfo ENOTFOUND generativelanguage.googleapis.com" is surfaced as
"Gemini Error: getaddrinfo ENOTFOUND generativelanguage.googleapis.com" —
the raw provider text, not a generic message. -/
theorem c8_counterexample :
    embeddedErrorToast "Error" "getaddrinfo ENOTFOUND generativelanguage.googleapis.com"
      = some "Gemini Error: getaddrinfo ENOTFOUND generativelanguage.googleapis.com" ∧
    jsIncludes "getaddrinfo ENOTFOUND generativelanguage.googleapis.com" "API key not valid" = false ∧
    embeddedErrorToast "Error" "getaddrinfo ENOTFOUND generativelanguage.googleapis.com"
      ≠ some "Failed to get suggestions from Gemini." := by decide

/-- C8 (amended): a failure whose message contains "API key not valid" is
rewritten to a fixed invalid-credential message in both variants.  For every
other failure the standalone clients substitute the fixed generic message
"Failed to get suggestions from Gemini.", while the embedded variant
surfaces the raw failure message prefixed with "Gemini Error: ",
suppressing only failures named AbortError. -/
theorem c8_error_mapping (name msg : String) (h : name ≠ "AbortError") :
    standaloneMapError true msg =
      (if jsIncludes msg "API key not valid" then
        "Invalid API Key. Please check your configuration."
      else "Failed to get suggestions from Gemini.") ∧
    embeddedErrorToast name msg =
      some ("Gemini Error: " ++
        (if jsIncludes msg "API key not valid" then
          "Invalid API Key. Please check your plugin settings."
        else msg)) ∧
    embeddedErrorToast "AbortError" msg = none := by
  refine ⟨?_, ?_, ?_⟩
  · simp [standaloneMapError]
  · simp [embeddedErrorToast, h]
  · simp [embeddedErrorToast]

/-- Witness for C8 (amended) at a concrete non-abort failure. -/
theorem c8_error_mapping_witness :
    embeddedErrorToast "Error" "oops" = some "Gemini Error: oops" :=
  ((c8_error_mapping "Error" "oops" (by decide)).2.1).trans (by decide)

/-! ## Standalone variant (`src/App.tsx`): event-driven model

State of the `App` component together with the effect-owned plumbing:
the state hooks `code`, `inlineSuggestion`, `isLoading`, `error`, the ref
`requestAbortController` (controllers are numbered; `abortedCtrls` records
every controller on which `abort()` was called), the single debounce timer
of the `useEffect` (at most one pending, as the effect cleanup runs
`clearTimeout` before a new timer is set), the set of in-flight
`getCodeSuggestions` calls, and a log of the outbound calls made. -/

structure StandaloneState where
  code : String
  inlineSuggestion : String
  isLoading : Bool
  error : Option String
  currentCtrl : Nat
  abortedCtrls : List Nat
  pendingTimer : Option (Nat × String)
  inflight : List (Nat × String)
  calls : List String
deriving DecidableEq, Repr

/-- Events at which the (cooperative) event loop of the standalone variant
can act: a text-change (`handleCodeChange` plus the `useEffect` re-run), the
debounce timer firing (running `fetchSuggestions` up to its `await`), and
the `getCodeSuggestions` promise for controller `c` settling. -/
inductive SEvent where
  | edit (text : String)
  | fireTimer
  | resolveOk (c : Nat) (result : String)
  | resolveErr (c : Nat) (msg : String)
deriving DecidableEq, Repr

/-- One step of the standalone variant.

* `edit`: `handleCodeChange` sets `code` and clears the suggestion; the
  effect re-run aborts the previous controller, creates a fresh one and
  restarts the 500 ms debounce timer (`clearTimeout` discards the previous
  pending timer).
* `fireTimer`: the pending timer fires and runs `fetchSuggestions`: below
  the 3-character trimmed minimum it only clears the suggestion; otherwise
  it sets the loading flag, clears the error and issues the outbound call.
* `resolveOk`/`resolveErr`: the call for controller `c` settles.  Every
  state update is guarded by `!signal.aborted`, the `finally` clause
  included. -/
def stepS (s : StandaloneState) : SEvent → StandaloneState
  | .edit t =>
    { s with code := t
           , inlineSuggestion := ""
           , abortedCtrls := s.currentCtrl :: s.abortedCtrls
           , currentCtrl := s.currentCtrl + 1
           , pendingTimer := some (s.currentCtrl + 1, t) }
  | .fireTimer =>
    match s.pendingTimer with
    | none => s
    | some (c, t) =>
      let s1 := { s with pendingTimer := none }
      if (jsTrim t).length < 3 then
        { s1 with inlineSuggestion := "" }
      else
        { s1 with isLoading := true
                , error := none
                , calls := t :: s1.calls
                , inflight := (c, t) :: s1.inflight }
  | .resolveOk c r =>
    if (s.inflight.lookup c).isSome then
      let s1 := { s with inflight := s.inflight.filter (fun p => p.1 != c) }
      let s2 := if c ∈ s1.abortedCtrls then s1 else { s1 with inlineSuggestion := r }
      if c ∈ s2.abortedCtrls then s2 else { s2 with isLoading := false }
    else s
  | .resolveErr c m =>
    if (s.inflight.lookup c).isSome then
      let s1 := { s with inflight := s.inflight.filter (fun p => p.1 != c) }
      let s2 := if c ∈ s1.abortedCtrls then s1
                else { s1 with error := some m, inlineSuggestion := "" }
      if c ∈ s2.abortedCtrls then s2 else { s2 with isLoading := false }
    else s

/-- Run a list of standalone events. -/
def runS (s : StandaloneState) : List SEvent → StandaloneState
  | [] => s
  | e :: es => runS (stepS s e) es

/-- The user-visible part of the standalone state: buffer, suggestion,
loading flag and error state. -/
structure VisibleS where
  code : String
  inlineSuggestion : String
  isLoading : Bool
  error : Option String
deriving DecidableEq, Repr

/-- Projection to the visible state. -/
def visibleS (s : StandaloneState) : VisibleS :=
  ⟨s.code, s.inlineSuggestion, s.isLoading, s.error⟩

/-- The standalone variant's state at mount: the initial buffer of
`App.tsx`, the first effect run having created controller 0 and scheduled
the debounce timer for the initial buffer. -/
def initialStandalone : StandaloneState :=
  { code := "function greet(name) \x7b\n  "
  , inlineSuggestion := ""
  , isLoading := false
  , error := none
  , currentCtrl := 0
  , abortedCtrls := []
  , pendingTimer := some (0, "function greet(name) \x7b\n  ")
  , inflight := []
  , calls := [] }

/-! ### Helper lemmas for the standalone model -/

/-- An abort is never undone: every step only grows `abortedCtrls`. -/
theorem abortedCtrls_mono (s : StandaloneState) (e : SEvent) :
    s.abortedCtrls ⊆ (stepS s e).abortedCtrls := by
  cases e with
  | edit t =>
    intro x hx
    exact List.mem_cons_of_mem _ hx
  | fireTimer =>
    intro x hx
    simp only [stepS]
    cases h : s.pendingTimer with
    | none => exact hx
    | some ct =>
      obtain ⟨c, t⟩ := ct
      by_cases hlen : (jsTrim t).length < 3 <;> simp [hlen] <;> exact hx
  | resolveOk c r =>
    intro x hx
    simp only [stepS]
    repeat' split
    all_goals simpa using hx
  | resolveErr c m =>
    intro x hx
    simp only [stepS]
    repeat' split
    all_goals simpa using hx

/-- Aborts survive any run of further events. -/
theorem abortedCtrls_mono_run (s : StandaloneState) (tr : List SEvent) :
    s.abortedCtrls ⊆ (runS s tr).abortedCtrls := by
  induction tr generalizing s with
  | nil => exact fun x hx => hx
  | cons e es ih =>
    exact fun x hx => ih (stepS s e) (abortedCtrls_mono s e hx)

/-- A text change aborts the controller that was current before it. -/
theorem edit_aborts_current (s : StandaloneState) (t : String) :
    s.currentCtrl ∈ (stepS s (.edit t)).abortedCtrls := by
  simp [stepS]

/-- Resolution of a call whose controller is aborted leaves the visible
state untouched: the suggestion, error and loading updates of
`fetchSuggestions` are all guarded by `!signal.aborted`. -/
theorem resolve_aborted_invisible (s : StandaloneState) (c : Nat) (r m : String)
    (h : c ∈ s.abortedCtrls) :
    visibleS (stepS s (.resolveOk c r)) = visibleS s ∧
    visibleS (stepS s (.resolveErr c m)) = visibleS s := by
  constructor <;>
    · simp only [stepS]
      split
      · simp [visibleS, h]
      · rfl

/-- C1 (amended): in the standalone variant, once a second debounce cycle
has started (a text change re-ran the effect and aborted the controller of
the first cycle), the first cycle's call — however the event loop
interleaves from then on, and whether it succeeds or fails — never changes
the buffer, the suggestion, the loading flag or the error state.  The
embedded variant does not enforce this; see the counterexample. -/
theorem c1_superseded_never_applied_standalone
    (s : StandaloneState) (t : String) (tr : List SEvent) (r m : String) :
    visibleS (stepS (runS (stepS s (.edit t)) tr) (.resolveOk s.currentCtrl r)) =
      visibleS (runS (stepS s (.edit t)) tr) ∧
    visibleS (stepS (runS (stepS s (.edit t)) tr) (.resolveErr s.currentCtrl m)) =
      visibleS (runS (stepS s (.edit t)) tr) := by
  have hmem : s.currentCtrl ∈ (runS (stepS s (.edit t)) tr).abortedCtrls :=
    abortedCtrls_mono_run _ tr (edit_aborts_current s t)
  exact resolve_aborted_invisible _ _ r m hmem

/-! ## Standalone variant: `handleKeyDown` (claims C6 and C9) -/

/-- The part of the `App` component state that `handleKeyDown` touches:
buffer, suggestion, and the textarea cursor position (`selectionStart` and
`selectionEnd` coincide in the handler, so one number suffices). -/
structure AppUIState where
  code : String
  inlineSuggestion : String
  cursorPos : Nat
deriving DecidableEq, Repr

/-- `handleKeyDown` of `App.tsx`: on Tab with a non-empty suggestion it
prevents the default effect (the returned Boolean), appends the suggestion
to the buffer, clears the suggestion and moves the cursor to the end of the
new buffer; any other key (or an empty suggestion) leaves the state alone
and does not prevent the default. -/
def handleKeyDown (st : AppUIState) (key : String) : AppUIState × Bool :=
  if key == "Tab" && st.inlineSuggestion != "" then
    let newCode := st.code ++ st.inlineSuggestion
    ({ code := newCode, inlineSuggestion := "", cursorPos := newCode.length }, true)
  else (st, false)

/-- C6 (confirmed): pressing Tab with a non-empty suggestion prevents the
default effect, sets the buffer to the previous buffer concatenated with
the suggestion, clears the suggestion, and moves the cursor to the new
end-of-text position. -/
theorem c6_tab_accept (st : AppUIState) (h : st.inlineSuggestion ≠ "") :
    handleKeyDown st "Tab" =
      ({ code := st.code ++ st.inlineSuggestion
       , inlineSuggestion := ""
       , cursorPos := (st.code ++ st.inlineSuggestion).length }, true) := by
  simp [handleKeyDown, h]

/-- Witness for C6 at the initial buffer of the demo and the suggestion
"console.log(name);". -/
theorem c6_tab_accept_witness :
    handleKeyDown ⟨"function greet(name) \x7b\n  ", "console.log(name);", 25⟩ "Tab" =
      ({ code := "function greet(name) \x7b\n  console.log(name);"
       , inlineSuggestion := ""
       , cursorPos := 43 }, true) :=
  (c6_tab_accept ⟨"function greet(name) \x7b\n  ", "console.log(name);", 25⟩ (by decide)).trans
    (by decide)

/-- C9 (confirmed): accepting a suggestion is idempotent on an unchanged
buffer — the first Tab clears the suggestion, so a second Tab without an
intervening edit changes nothing. -/
theorem c9_accept_idempotent (st : AppUIState) (h : st.inlineSuggestion ≠ "") :
    (handleKeyDown (handleKeyDown st "Tab").1 "Tab").1 = (handleKeyDown st "Tab").1 := by
  simp [handleKeyDown, h]

/-- Witness for C9 at a concrete state with a non-empty suggestion. -/
theorem c9_accept_idempotent_witness :
    (handleKeyDown (handleKeyDown ⟨"const x = ", "42;", 10⟩ "Tab").1 "Tab").1 =
      (handleKeyDown ⟨"const x = ", "42;", 10⟩ "Tab").1 :=
  c9_accept_idempotent ⟨"const x = ", "42;", 10⟩ (by decide)

/-! ## Embedded variant (`src/main.js`): event-driven model

State of one `GeminiAutocompletePlugin` instance together with the shared
editor session and the promises handed to Acode.  Controllers are numbered
as in the standalone model; `pendingTimer` is the single `#debounceTimeout`
slot (each new invocation runs `clearTimeout` on it before re-arming);
`inflight` holds the outstanding `generateContent` call of an invocation as
`(invocation id, (controller id, code snapshot))`; `resolvedWith` records
each promise resolution, newest first. -/

structure EmbeddedState where
  ai : Option String
  registered : Bool
  alerts : List String
  toasts : List String
  isLoading : Bool
  currentCtrl : Option Nat
  nextCtrl : Nat
  abortedCtrls : List Nat
  pendingTimer : Option Nat
  nextInv : Nat
  sessionText : String
  inflight : List (Nat × (Nat × String))
  resolvedWith : List (Nat × List Candidate)
  calls : List String
deriving DecidableEq, Repr

/-- Events of the embedded variant: Acode invoking `#provideCompletions`
(with the session text as of that keystroke), the debounce timer firing,
the `generateContent` promise of invocation `k` settling, and the plugin
being unmounted. -/
inductive EEvent where
  | invoke (text : String)
  | fireTimer
  | respondOk (k : Nat) (respText : Option String)
  | respondErr (k : Nat) (name msg : String)
  | destroy
deriving DecidableEq, Repr

/-- One step of the embedded variant (`#provideCompletions`,
`#getCodeSuggestion` and `destroy` of `src/main.js`).

* `invoke`: a fresh invocation id is allocated, `clearTimeout` discards any
  pending timer and the 700 ms timer is re-armed for this invocation; the
  session text is the text of this keystroke.  The invocation's promise is
  pending (no entry in `resolvedWith`).
* `fireTimer`: the timer body: abort the current controller if a request is
  in flight, set the loading flag, create a fresh controller; read the
  session text; below the 10-character trimmed minimum resolve with `[]`
  (the `finally` clears the loading flag); otherwise show the
  "Gemini is thinking..." toast and start `#getCodeSuggestion`, which
  throws at once when the client handle is missing (caught in the provider,
  toast shown, promise resolved with `[]`) and otherwise issues the
  outbound call.
* `respondOk`: the call returns.  `#getCodeSuggestion` blanks the text when
  its own signal was aborted; the provider then checks the signal of the
  *current* `#abortController` (which may belong to a later invocation) and
  resolves with one candidate or with `[]`; the `finally` clears the
  shared loading flag.
* `respondErr`: the call rejects; the `catch` shows the mapped toast for
  non-abort failures and resolves with `[]`.
* `destroy`: aborts the current controller and clears the timer. -/
def stepE (s : EmbeddedState) : EEvent → EmbeddedState
  | .invoke text =>
    { s with sessionText := text
           , pendingTimer := some s.nextInv
           , nextInv := s.nextInv + 1 }
  | .fireTimer =>
    match s.pendingTimer with
    | none => s
    | some k =>
      let s1 := { s with pendingTimer := none }
      let s2 :=
        if s1.isLoading then
          match s1.currentCtrl with
          | some c => { s1 with abortedCtrls := c :: s1.abortedCtrls }
          | none => s1
        else s1
      let newCtrl := s2.nextCtrl
      let s3 := { s2 with isLoading := true
                        , currentCtrl := some newCtrl
                        , nextCtrl := newCtrl + 1 }
      let codeBeforeCursor := s3.sessionText
      if (jsTrim codeBeforeCursor).length < 10 then
        { s3 with resolvedWith := (k, ([] : List Candidate)) :: s3.resolvedWith
                , isLoading := false }
      else
        let s4 := { s3 with toasts := "Gemini is thinking..." :: s3.toasts }
        match s4.ai with
        | none =>
          { s4 with toasts := "Gemini Error: Gemini AI client not initialized." :: s4.toasts
                  , resolvedWith := (k, ([] : List Candidate)) :: s4.resolvedWith
                  , isLoading := false }
        | some _ =>
          { s4 with calls := codeBeforeCursor :: s4.calls
                  , inflight := (k, (newCtrl, codeBeforeCursor)) :: s4.inflight }
  | .respondOk k respText =>
    match s.inflight.lookup k with
    | none => s
    | some (c, _snippet) =>
      let s1 := { s with inflight := s.inflight.filter (fun p => p.1 != k) }
      let suggestion := embeddedResponseText (decide (c ∈ s1.abortedCtrls)) respText
      let currentAborted :=
        match s1.currentCtrl with
        | some cc => decide (cc ∈ s1.abortedCtrls)
        | none => true
      let result :=
        if suggestion != "" && !currentAborted then [mkCandidate suggestion] else []
      { s1 with resolvedWith := (k, result) :: s1.resolvedWith
              , isLoading := false }
  | .respondErr k name msg =>
    match s.inflight.lookup k with
    | none => s
    | some _ =>
      let s1 := { s with inflight := s.inflight.filter (fun p => p.1 != k) }
      let s2 :=
        match embeddedErrorToast name msg with
        | none => s1
        | some tmsg => { s1 with toasts := tmsg :: s1.toasts }
      { s2 with resolvedWith := (k, ([] : List Candidate)) :: s2.resolvedWith
              , isLoading := false }
  | .destroy =>
    let s1 :=
      match s.currentCtrl with
      | some c => { s with abortedCtrls := c :: s.abortedCtrls }
      | none => s
    { s1 with pendingTimer := none }

/-- Run a list of embedded events. -/
def runE (s : EmbeddedState) : List EEvent → EmbeddedState
  | [] => s
  | e :: es => runE (stepE s e) es

/-- The plugin state before `init` runs. -/
def emptyEmbedded : EmbeddedState :=
  { ai := none
  , registered := false
  , alerts := []
  , toasts := []
  , isLoading := false
  , currentCtrl := none
  , nextCtrl := 0
  , abortedCtrls := []
  , pendingTimer := none
  , nextInv := 0
  , sessionText := ""
  , inflight := []
  , resolvedWith := []
  , calls := [] }

/-- `init` of `src/main.js`: with no API key (absent or the empty string,
both falsy in `if (!apiKey)`) it alerts and returns without registering;
otherwise it constructs the client handle from the key, registers the
completion provider and shows the activation toast. -/
def initPlugin (geminiApiKey : Option String) : EmbeddedState :=
  match geminiApiKey with
  | none =>
    { emptyEmbedded with
        alerts := ["Gemini API Key is not set. Please configure it in the plugin settings."] }
  | some key =>
    if key = "" then
      { emptyEmbedded with
          alerts := ["Gemini API Key is not set. Please configure it in the plugin settings."] }
    else
      { emptyEmbedded with
          ai := some key
        , registered := true
        , toasts := ["Gemini Autocomplete is active."] }

/-- The invocation ids with an outstanding outbound call. -/
def inflightKeys (s : EmbeddedState) : List Nat := s.inflight.map Prod.fst

/-- The invocation ids whose promise has been resolved. -/
def resolvedKeys (s : EmbeddedState) : List Nat := s.resolvedWith.map Prod.fst

/-- The guard at the top of `#getCodeSuggestion`:
`if (!this.#ai) throw new Error("Gemini AI client not initialized.")`. -/
def aiInitCheck (s : EmbeddedState) : Except String Unit :=
  match s.ai with
  | none => Except.error "Gemini AI client not initialized."
  | some _ => Except.ok ()

/-! ### Generic lemmas about association-list lookup -/

/-- A successful lookup means the key occurs in the list. -/
theorem lookup_some_mem_fst {α : Type} {l : List (Nat × α)} {a : Nat} {b : α}
    (h : l.lookup a = some b) : a ∈ l.map Prod.fst := by
  induction l with
  | nil => simp [List.lookup] at h
  | cons p t ih =>
    obtain ⟨k1, v1⟩ := p
    by_cases hb : a = k1
    · simp [hb]
    · rw [List.lookup] at h
      simp only [show (a == k1) = false from by simpa using hb] at h
      simp [ih h]

/-- Lookup of an absent key gives `none`. -/
theorem lookup_none_of_not_mem_fst {α : Type} {l : List (Nat × α)} {a : Nat}
    (h : a ∉ l.map Prod.fst) : l.lookup a = none := by
  induction l with
  | nil => rfl
  | cons p t ih =>
    obtain ⟨k1, v1⟩ := p
    simp only [List.map_cons, List.mem_cons, not_or] at h
    rw [List.lookup]
    simp [show (a == k1) = false from by simpa using h.1, ih h.2]

/-- Keys of a filtered association list are keys of the original. -/
theorem mem_fst_filter {α : Type} {l : List (Nat × α)} {f : Nat × α → Bool} {a : Nat}
    (h : a ∈ (l.filter f).map Prod.fst) : a ∈ l.map Prod.fst := by
  simp only [List.mem_map] at h ⊢
  obtain ⟨p, hp, rfl⟩ := h
  exact ⟨p, List.mem_of_mem_filter hp, rfl⟩

/-! ### One-step characterization of the embedded timer and transport events -/

/-- Firing the timer on a below-minimum session text: no outbound call, the
invocation's promise is resolved with the empty candidate list at once. -/
theorem stepE_fire_short (s : EmbeddedState) (k : Nat)
    (hp : s.pendingTimer = some k) (h : (jsTrim s.sessionText).length < 10) :
    (stepE s .fireTimer).calls = s.calls ∧
    (stepE s .fireTimer).inflight = s.inflight ∧
    (stepE s .fireTimer).resolvedWith = (k, ([] : List Candidate)) :: s.resolvedWith ∧
    (stepE s .fireTimer).pendingTimer = none ∧
    (stepE s .fireTimer).nextInv = s.nextInv := by
  simp only [stepE, hp]
  by_cases hl : s.isLoading
  · cases hcc : s.currentCtrl <;> simp [hl, hcc, h]
  · simp [hl, h]

/-- Firing the timer with enough text and a constructed client handle:
exactly one outbound call is issued, carrying the current session text, and
the invocation joins the in-flight set. -/
theorem stepE_fire_long (s : EmbeddedState) (k : Nat) (a : String)
    (hp : s.pendingTimer = some k) (hai : s.ai = some a)
    (h : ¬ (jsTrim s.sessionText).length < 10) :
    (stepE s .fireTimer).calls = s.sessionText :: s.calls ∧
    (stepE s .fireTimer).inflight = (k, (s.nextCtrl, s.sessionText)) :: s.inflight ∧
    (stepE s .fireTimer).resolvedWith = s.resolvedWith ∧
    (stepE s .fireTimer).pendingTimer = none ∧
    (stepE s .fireTimer).nextInv = s.nextInv := by
  simp only [stepE, hp]
  by_cases hl : s.isLoading
  · cases hcc : s.currentCtrl <;> simp [hl, hcc, h, hai]
  · simp [hl, h, hai]

/-- Firing the timer with enough text but no client handle: the
initialization error is caught in the provider and the promise resolves
with the empty list; no outbound call. -/
theorem stepE_fire_noai (s : EmbeddedState) (k : Nat)
    (hp : s.pendingTimer = some k) (hai : s.ai = none)
    (h : ¬ (jsTrim s.sessionText).length < 10) :
    (stepE s .fireTimer).calls = s.calls ∧
    (stepE s .fireTimer).inflight = s.inflight ∧
    (stepE s .fireTimer).resolvedWith = (k, ([] : List Candidate)) :: s.resolvedWith ∧
    (stepE s .fireTimer).pendingTimer = none ∧
    (stepE s .fireTimer).nextInv = s.nextInv := by
  simp only [stepE, hp]
  by_cases hl : s.isLoading
  · cases hcc : s.currentCtrl <;> simp [hl, hcc, h, hai]
  · simp [hl, h, hai]

/-- Exact resolution value of a successful transport response: a singleton
candidate when the suggestion (blanked if the request's own controller was
aborted) is non-empty and the current controller is unaborted, the empty
list otherwise. -/
theorem stepE_respondOk_eq (s : EmbeddedState) (k c : Nat) (snip : String) (t : Option String)
    (h : s.inflight.lookup k = some (c, snip)) :
    (stepE s (.respondOk k t)).resolvedWith =
      (k, if embeddedResponseText (decide (c ∈ s.abortedCtrls)) t != "" &&
             !(match s.currentCtrl with
               | some cc => decide (cc ∈ s.abortedCtrls)
               | none => true)
          then [mkCandidate (embeddedResponseText (decide (c ∈ s.abortedCtrls)) t)]
          else []) :: s.resolvedWith := by
  simp only [stepE, h]

/-- A transport failure resolves the invocation's promise with the empty
list (the rejection never propagates). -/
theorem stepE_respondErr (s : EmbeddedState) (k : Nat) (name msg : String)
    (cs : Nat × String) (h : s.inflight.lookup k = some cs) :
    (stepE s (.respondErr k name msg)).resolvedWith = (k, ([] : List Candidate)) :: s.resolvedWith := by
  simp only [stepE, h]
  split <;> rfl

/-! ### Superseded invocations (claim C4) -/

/-- An invocation id `k` is dead when it was allocated, its timer is no
longer pending, it has no outstanding call, and its promise was never
resolved: nothing can resolve it any more. -/
def promiseDead (k : Nat) (s : EmbeddedState) : Prop :=
  k < s.nextInv ∧ s.pendingTimer ≠ some k ∧ k ∉ inflightKeys s ∧ k ∉ resolvedKeys s

instance (k : Nat) (s : EmbeddedState) : Decidable (promiseDead k s) := by
  unfold promiseDead inflightKeys resolvedKeys
  infer_instance

/-- Deadness is preserved by every event: invocations are allocated fresh,
the timer only fires for the pending invocation, and responses only resolve
in-flight invocations. -/
theorem promiseDead_step (k : Nat) (s : EmbeddedState) (e : EEvent)
    (h : promiseDead k s) : promiseDead k (stepE s e) := by
  obtain ⟨hlt, hpend, hinf, hres⟩ := h
  cases e with
  | invoke t =>
    refine ⟨Nat.lt_succ_of_lt hlt, ?_, hinf, hres⟩
    simp only [stepE]
    intro hc
    rw [Option.some.injEq] at hc
    omega
  | fireTimer =>
    cases hp : s.pendingTimer with
    | none => simp only [stepE, hp]; exact ⟨hlt, hpend, hinf, hres⟩
    | some k2 =>
      have hk2 : k2 ≠ k := fun hh => hpend (by rw [hp, hh])
      have main : ∀ st : EmbeddedState,
          st.inflight = s.inflight ∨ st.inflight = (k2, (s.nextCtrl, s.sessionText)) :: s.inflight →
          (st.resolvedWith = s.resolvedWith ∨
            st.resolvedWith = (k2, ([] : List Candidate)) :: s.resolvedWith) →
          st.pendingTimer = none → st.nextInv = s.nextInv → promiseDead k st := by
        intro st hi hr hpt hni
        refine ⟨by rw [hni]; exact hlt, by rw [hpt]; simp, ?_, ?_⟩
        · unfold inflightKeys at *
          rcases hi with hi | hi <;> rw [hi]
          · exact hinf
          · simp only [List.map_cons, List.mem_cons, not_or]
            exact ⟨fun hh => hk2 hh.symm, hinf⟩
        · unfold resolvedKeys at *
          rcases hr with hr | hr <;> rw [hr]
          · exact hres
          · simp only [List.map_cons, List.mem_cons, not_or]
            exact ⟨fun hh => hk2 hh.symm, hres⟩
      by_cases hlen : (jsTrim s.sessionText).length < 10
      · obtain ⟨_, hi, hr, hpt, hni⟩ := stepE_fire_short s k2 hp hlen
        exact main _ (Or.inl hi) (Or.inr hr) hpt hni
      · cases hai : s.ai with
        | none =>
          obtain ⟨_, hi, hr, hpt, hni⟩ := stepE_fire_noai s k2 hp hai hlen
          exact main _ (Or.inl hi) (Or.inr hr) hpt hni
        | some a =>
          obtain ⟨_, hi, hr, hpt, hni⟩ := stepE_fire_long s k2 a hp hai hlen
          exact main _ (Or.inr hi) (Or.inl hr) hpt hni
  | respondOk k2 t =>
    cases hlk : s.inflight.lookup k2 with
    | none => simp only [stepE, hlk]; exact ⟨hlt, hpend, hinf, hres⟩
    | some cs =>
      obtain ⟨c, snip⟩ := cs
      have hk2 : k2 ≠ k := fun hh => hinf (hh ▸ lookup_some_mem_fst hlk)
      simp only [stepE, hlk]
      refine ⟨hlt, hpend, ?_, ?_⟩
      · intro hmem
        exact hinf (mem_fst_filter hmem)
      · intro hmem
        simp only [resolvedKeys, List.map_cons, List.mem_cons] at hmem
        rcases hmem with h1 | h2
        · exact hk2 h1.symm
        · exact hres h2
  | respondErr k2 name msg =>
    cases hlk : s.inflight.lookup k2 with
    | none => simp only [stepE, hlk]; exact ⟨hlt, hpend, hinf, hres⟩
    | some cs =>
      have hk2 : k2 ≠ k := fun hh => hinf (hh ▸ lookup_some_mem_fst hlk)
      simp only [stepE, hlk]
      cases hm : embeddedErrorToast name msg <;>
      · refine ⟨hlt, hpend, ?_, ?_⟩
        · intro hmem
          exact hinf (mem_fst_filter hmem)
        · intro hmem
          simp only [resolvedKeys, List.map_cons, List.mem_cons] at hmem
          rcases hmem with h1 | h2
          · exact hk2 h1.symm
          · exact hres h2
  | destroy =>
    cases hcc : s.currentCtrl <;>
      simp only [stepE, hcc] <;>
      exact ⟨hlt, by simp, hinf, hres⟩

/-- Deadness survives any run of further events. -/
theorem promiseDead_run (k : Nat) (s : EmbeddedState) (tr : List EEvent)
    (h : promiseDead k s) : promiseDead k (runE s tr) := by
  induction tr generalizing s with
  | nil => exact h
  | cons e es ih => exact ih (stepE s e) (promiseDead_step k s e h)

/-- C4 counterexample: the claim states every invocation of the provider
entry point resolves its promise.  When a second invocation arrives before
the first invocation's 700 ms timer fires, `clearTimeout` discards the
first invocation's timer and its `resolve` is never called: after the full
trace below (second invocation fired and its response delivered), the
promise of invocation 0 has no resolution, no pending timer and no
in-flight call left that could ever resolve it. -/
theorem c4_counterexample :
    ((runE (initPlugin (some "KEY"))
      [ .invoke "function greet(name) \x7b", .invoke "function greet(name) \x7b x",
        .fireTimer, .respondOk 1 (some "console.log(name);") ]).resolvedWith).lookup 0 = none ∧
    (runE (initPlugin (some "KEY"))
      [ .invoke "function greet(name) \x7b", .invoke "function greet(name) \x7b x",
        .fireTimer, .respondOk 1 (some "console.log(name);") ]).pendingTimer = none ∧
    (runE (initPlugin (some "KEY"))
      [ .invoke "function greet(name) \x7b", .invoke "function greet(name) \x7b x",
        .fireTimer, .respondOk 1 (some "console.log(name);") ]).inflight = [] ∧
    (runE (initPlugin (some "KEY"))
      [ .invoke "function greet(name) \x7b", .invoke "function greet(name) \x7b x",
        .fireTimer, .respondOk 1 (some "console.log(name);") ]).nextInv = 2 := by decide

/-- C4 (amended): an invocation whose debounce timer fires has its promise
resolved: immediately with the empty list when the trimmed input is shorter
than 10 characters or the client handle is missing; otherwise the outbound
call is issued and the invocation stays in flight until its transport call
settles, upon which the promise resolves with exactly one candidate (built
from the suggestion) when the suggestion is non-empty and uncancelled, and
with the empty list on cancellation (own controller aborted, or current
controller aborted) and on failure — never rejecting.  An invocation that
is dead (superseded before its timer fired, hence not pending, not in
flight and unresolved) is never resolved by any later events. -/
theorem c4_resolution_behavior
    (s sr sd : EmbeddedState) (k kr c kd : Nat) (snip : String)
    (t : Option String) (name msg : String) (tr : List EEvent)
    (hp : s.pendingTimer = some k)
    (hok : sr.inflight.lookup kr = some (c, snip))
    (hdead : promiseDead kd sd) :
    ((jsTrim s.sessionText).length < 10 →
      (stepE s .fireTimer).resolvedWith.lookup k = some []) ∧
    (¬ (jsTrim s.sessionText).length < 10 → s.ai = none →
      (stepE s .fireTimer).resolvedWith.lookup k = some []) ∧
    (∀ a, ¬ (jsTrim s.sessionText).length < 10 → s.ai = some a →
      (stepE s .fireTimer).inflight.lookup k = some (s.nextCtrl, s.sessionText) ∧
      (stepE s .fireTimer).calls = s.sessionText :: s.calls) ∧
    (∀ cc, c ∉ sr.abortedCtrls → sr.currentCtrl = some cc → cc ∉ sr.abortedCtrls →
      embeddedResponseText false t ≠ "" →
      (stepE sr (.respondOk kr t)).resolvedWith.lookup kr =
        some [mkCandidate (embeddedResponseText false t)]) ∧
    (c ∈ sr.abortedCtrls →
      (stepE sr (.respondOk kr t)).resolvedWith.lookup kr = some []) ∧
    (∀ cc, sr.currentCtrl = some cc → cc ∈ sr.abortedCtrls →
      (stepE sr (.respondOk kr t)).resolvedWith.lookup kr = some []) ∧
    (stepE sr (.respondErr kr name msg)).resolvedWith.lookup kr = some [] ∧
    (runE sd tr).resolvedWith.lookup kd = none := by
  refine ⟨?_, ?_, ?_, ?_, ?_, ?_, ?_, ?_⟩
  · intro hlen
    obtain ⟨_, _, hr, _, _⟩ := stepE_fire_short s k hp hlen
    rw [hr, List.lookup]
    simp
  · intro hlen hai
    obtain ⟨_, _, hr, _, _⟩ := stepE_fire_noai s k hp hai hlen
    rw [hr, List.lookup]
    simp
  · intro a hlen hai
    obtain ⟨hcall, hi, _, _, _⟩ := stepE_fire_long s k a hp hai hlen
    constructor
    · rw [hi, List.lookup]
      simp
    · exact hcall
  · intro cc h1 hcc h2 h3
    rw [stepE_respondOk_eq sr kr c snip t hok, List.lookup]
    simp only [beq_self_eq_true]
    rw [decide_eq_false h1, hcc]
    simp [h2, h3]
  · intro h1
    rw [stepE_respondOk_eq sr kr c snip t hok, List.lookup]
    simp only [beq_self_eq_true]
    rw [decide_eq_true h1]
    simp [embeddedResponseText]
  · intro cc hcc h2
    rw [stepE_respondOk_eq sr kr c snip t hok, List.lookup]
    simp only [beq_self_eq_true]
    rw [hcc]
    simp [h2, embeddedResponseText]
  · rw [stepE_respondErr sr kr name msg (c, snip) hok, List.lookup]
    simp
  · exact lookup_none_of_not_mem_fst (promiseDead_run kd sd tr hdead).2.2.2

/-- Witness for C4 (amended): the fired invocation of a concrete reachable
state resolves with exactly the one candidate built from the response, and
invocation 0 of the concrete superseded trace stays unresolved through the
successor fire and response. -/
theorem c4_resolution_behavior_witness :
    (stepE (runE (initPlugin (some "KEY"))
        [ .invoke "function greet(name) \x7b", .fireTimer ])
      (.respondOk 0 (some "console.log(name);"))).resolvedWith.lookup 0
      = some [mkCandidate (embeddedResponseText false (some "console.log(name);"))] ∧
    (runE (runE (initPlugin (some "KEY"))
        [ .invoke "function greet(name) \x7b", .invoke "function greet(name) \x7b x" ])
      [ .fireTimer, .respondOk 1 (some "console.log(name);") ]).resolvedWith.lookup 0 = none := by
  have h := c4_resolution_behavior
    (runE (initPlugin (some "KEY")) [ .invoke "short" ])
    (runE (initPlugin (some "KEY")) [ .invoke "function greet(name) \x7b", .fireTimer ])
    (runE (initPlugin (some "KEY"))
      [ .invoke "function greet(name) \x7b", .invoke "function greet(name) \x7b x" ])
    0 0 0 0 "function greet(name) \x7b"
    (some "console.log(name);") "Error" "boom"
    [ .fireTimer, .respondOk 1 (some "console.log(name);") ]
    (by decide) (by decide) (by decide)
  exact ⟨h.2.2.2.1 0 (by decide) (by decide) (by decide) (by decide), h.2.2.2.2.2.2.2⟩

/-! ### Length guards (claim C5) -/

/-- Firing the standalone debounce timer on a below-minimum snapshot:
no outbound call, the suggestion is cleared, the loading flag untouched. -/
theorem stepS_fire_short (s : StandaloneState) (c : Nat) (t : String)
    (hp : s.pendingTimer = some (c, t)) (h : (jsTrim t).length < 3) :
    (stepS s .fireTimer).calls = s.calls ∧
    (stepS s .fireTimer).inflight = s.inflight ∧
    (stepS s .fireTimer).inlineSuggestion = "" ∧
    (stepS s .fireTimer).isLoading = s.isLoading := by
  simp [stepS, hp, h]

/-- Firing the standalone debounce timer on a long enough snapshot: one
outbound call carrying the snapshot text. -/
theorem stepS_fire_long (s : StandaloneState) (c : Nat) (t : String)
    (hp : s.pendingTimer = some (c, t)) (h : ¬ (jsTrim t).length < 3) :
    (stepS s .fireTimer).calls = t :: s.calls ∧
    (stepS s .fireTimer).inflight = (c, t) :: s.inflight := by
  simp [stepS, hp, h]

/-- C5 (confirmed): when the trimmed snapshot is below the minimum
(3 characters standalone, 10 embedded), no outbound call is made; the
standalone variant clears any existing suggestion and the embedded variant
resolves the invocation with the empty candidate list. -/
theorem c5_min_length_guard
    (s : StandaloneState) (c : Nat) (t : String) (se : EmbeddedState) (k : Nat)
    (hs : s.pendingTimer = some (c, t)) (ht : (jsTrim t).length < 3)
    (he : se.pendingTimer = some k) (hte : (jsTrim se.sessionText).length < 10) :
    (stepS s .fireTimer).calls = s.calls ∧
    (stepS s .fireTimer).inflight = s.inflight ∧
    (stepS s .fireTimer).inlineSuggestion = "" ∧
    (stepE se .fireTimer).calls = se.calls ∧
    (stepE se .fireTimer).inflight = se.inflight ∧
    (stepE se .fireTimer).resolvedWith.lookup k = some [] := by
  obtain ⟨h1, h2, h3, _⟩ := stepS_fire_short s c t hs ht
  obtain ⟨h4, h5, h6, _, _⟩ := stepE_fire_short se k he hte
  refine ⟨h1, h2, h3, h4, h5, ?_⟩
  rw [h6, List.lookup]
  simp

/-- Witness for C5 at the 2-character standalone snapshot "ab" and the
5-character embedded session text "short". -/
theorem c5_min_length_guard_witness :
    (stepS { initialStandalone with pendingTimer := some (0, "ab") } .fireTimer).calls = [] ∧
    (stepE (runE (initPlugin (some "K")) [ .invoke "short" ]) .fireTimer).resolvedWith.lookup 0
      = some [] := by
  have h := c5_min_length_guard
    { initialStandalone with pendingTimer := some (0, "ab") } 0 "ab"
    (runE (initPlugin (some "K")) [ .invoke "short" ]) 0
    rfl (by decide) (by decide) (by decide)
  exact ⟨h.1, h.2.2.2.2.2⟩

/-! ### Debounce coalescing (claim C2) -/

/-- During a burst of edits no outbound call is made and exactly the last
edit's timer is left pending (each edit's effect cleanup cancels the
previous timer). -/
theorem runS_edit_burst (s0 : StandaloneState) (es : List String) (tlast : String) :
    (runS s0 ((es ++ [tlast]).map SEvent.edit)).calls = s0.calls ∧
    (runS s0 ((es ++ [tlast]).map SEvent.edit)).inflight = s0.inflight ∧
    (runS s0 ((es ++ [tlast]).map SEvent.edit)).pendingTimer =
      some ((runS s0 ((es ++ [tlast]).map SEvent.edit)).currentCtrl, tlast) := by
  induction es generalizing s0 with
  | nil => simp [runS, stepS]
  | cons t es ih => simpa [runS] using ih (stepS s0 (.edit t))

/-- During a burst of provider invocations no outbound call is made, the
session text is the last invocation's text, and exactly the last
invocation's timer is pending (`clearTimeout` cancels each predecessor). -/
theorem runE_invoke_burst (e0 : EmbeddedState) (fs : List String) (flast : String) :
    (runE e0 ((fs ++ [flast]).map EEvent.invoke)).calls = e0.calls ∧
    (runE e0 ((fs ++ [flast]).map EEvent.invoke)).inflight = e0.inflight ∧
    (runE e0 ((fs ++ [flast]).map EEvent.invoke)).sessionText = flast ∧
    (runE e0 ((fs ++ [flast]).map EEvent.invoke)).ai = e0.ai ∧
    (runE e0 ((fs ++ [flast]).map EEvent.invoke)).pendingTimer =
      some ((runE e0 ((fs ++ [flast]).map EEvent.invoke)).nextInv - 1) := by
  induction fs generalizing e0 with
  | nil => simp [runE, stepE]
  | cons t fs ih => simpa [runE] using ih (stepE e0 (.invoke t))

/-- C2 counterexample: the claim states that every burst produces exactly
one outbound call carrying the last edit's text.  For the burst whose last
edit is the 1-character text "x" (below the 3-character minimum), the
firing debounce timer makes no outbound call at all, and nothing remains
pending or in flight. -/
theorem c2_counterexample :
    (runS initialStandalone [ .edit "function greet(", .edit "x", .fireTimer ]).calls = [] ∧
    (runS initialStandalone [ .edit "function greet(", .edit "x", .fireTimer ]).pendingTimer
      = none ∧
    (runS initialStandalone [ .edit "function greet(", .edit "x", .fireTimer ]).inflight = [] := by
  decide

/-- C2 (amended): for any burst of edits (standalone) or provider
invocations (embedded), no outbound call is made during the burst, every
earlier edit's timer is cancelled, and when the surviving timer fires
exactly one outbound call is made, carrying the text of the last edit —
provided the last text's trimmed length meets the variant's minimum (3
standalone, 10 embedded); below the minimum no call is made at all. -/
theorem c2_debounce_coalescing
    (s0 : StandaloneState) (es : List String) (tlast : String)
    (e0 : EmbeddedState) (fs : List String) (flast : String) (a : String)
    (h3 : ¬ (jsTrim tlast).length < 3)
    (h10 : ¬ (jsTrim flast).length < 10)
    (hai : e0.ai = some a) :
    (runS s0 ((es ++ [tlast]).map SEvent.edit)).calls = s0.calls ∧
    (stepS (runS s0 ((es ++ [tlast]).map SEvent.edit)) .fireTimer).calls = tlast :: s0.calls ∧
    (runE e0 ((fs ++ [flast]).map EEvent.invoke)).calls = e0.calls ∧
    (stepE (runE e0 ((fs ++ [flast]).map EEvent.invoke)) .fireTimer).calls = flast :: e0.calls := by
  obtain ⟨hc, hi, hp⟩ := runS_edit_burst s0 es tlast
  obtain ⟨hc2, hi2, hsess, hai2, hp2⟩ := runE_invoke_burst e0 fs flast
  refine ⟨hc, ?_, hc2, ?_⟩
  · obtain ⟨hcall, _⟩ := stepS_fire_long _ _ _ hp h3
    rw [hcall, hc]
  · have hai3 : (runE e0 ((fs ++ [flast]).map EEvent.invoke)).ai = some a := by
      rw [hai2, hai]
    have h10b :
        ¬ (jsTrim (runE e0 ((fs ++ [flast]).map EEvent.invoke)).sessionText).length < 10 := by
      rw [hsess]; exact h10
    obtain ⟨hcall, _⟩ := stepE_fire_long _ _ a hp2 hai3 h10b
    rw [hcall, hsess, hc2]

/-- Witness for C2 (amended): a two-edit burst ending in the 22-character
text issues exactly the one call carrying that text. -/
theorem c2_debounce_coalescing_witness :
    (stepS (runS initialStandalone
        ((["function greet("] ++ ["function greet(name) \x7b"]).map SEvent.edit)) .fireTimer).calls
      = ["function greet(name) \x7b"] :=
  (c2_debounce_coalescing initialStandalone ["function greet("] "function greet(name) \x7b"
    (initPlugin (some "K")) ["function greet("] "function greet(name) \x7b" "K"
    (by decide) (by decide) (by decide)).2.1

/-! ### Supersession in the embedded variant (claim C1) -/

/-- C1 counterexample: in the embedded variant, invocation 0's call is in
flight when invocation 1 arrives (a second debounce cycle starts before the
first call resolves).  Because the abort only happens when the *next* timer
fires, invocation 0's controller is still unaborted when its response
arrives, and its stale result is delivered as a visible candidate — while
invocation 1's timer is still pending. -/
theorem c1_counterexample :
    ((runE (initPlugin (some "KEY"))
      [ .invoke "function greet(name) \x7b", .fireTimer,
        .invoke "function greet(name) \x7b x",
        .respondOk 0 (some "console.log(name);") ]).resolvedWith).lookup 0
      = some [mkCandidate "console.log(name);"] ∧
    [mkCandidate "console.log(name);"] ≠ ([] : List Candidate) ∧
    (runE (initPlugin (some "KEY"))
      [ .invoke "function greet(name) \x7b", .fireTimer,
        .invoke "function greet(name) \x7b x",
        .respondOk 0 (some "console.log(name);") ]).pendingTimer = some 1 := by decide

/-! ### Provider registration and the client handle (claim C10) -/

/-- No event ever changes the client handle `#ai` after `init`. -/
theorem stepE_ai (s : EmbeddedState) (e : EEvent) : (stepE s e).ai = s.ai := by
  cases e with
  | invoke t => rfl
  | fireTimer =>
    cases hp : s.pendingTimer with
    | none => simp [stepE, hp]
    | some k =>
      simp only [stepE, hp]
      by_cases hl : s.isLoading
      · cases hcc : s.currentCtrl <;>
        · by_cases hlen : (jsTrim s.sessionText).length < 10
          · simp [hl, hcc, hlen]
          · cases hai : s.ai <;> simp [hl, hcc, hlen, hai]
      · by_cases hlen : (jsTrim s.sessionText).length < 10
        · simp [hl, hlen]
        · cases hai : s.ai <;> simp [hl, hlen, hai]
  | respondOk k t =>
    cases hlk : s.inflight.lookup k with
    | none => simp [stepE, hlk]
    | some cs => obtain ⟨c, snip⟩ := cs; simp [stepE, hlk]
  | respondErr k name msg =>
    cases hlk : s.inflight.lookup k with
    | none => simp [stepE, hlk]
    | some cs =>
      simp only [stepE, hlk]
      cases hm : embeddedErrorToast name msg <;> simp
  | destroy =>
    cases hcc : s.currentCtrl <;> simp [stepE, hcc]

/-- The client handle is constant over any run of events. -/
theorem runE_ai (s : EmbeddedState) (tr : List EEvent) : (runE s tr).ai = s.ai := by
  induction tr generalizing s with
  | nil => rfl
  | cons e es ih => exact (ih (stepE s e)).trans (stepE_ai s e)

/-- C10 (confirmed): `init` registers the completion provider only after
the client handle was constructed from a present (non-empty) API key, and
nothing ever resets the handle; hence at every later point of any event
run the handle is non-null and the "Gemini AI client not initialized"
guard of `#getCodeSuggestion` cannot fire. -/
theorem c10_provider_ai_initialized (key : Option String) (tr : List EEvent)
    (h : (initPlugin key).registered = true) :
    (runE (initPlugin key) tr).ai ≠ none ∧
    aiInitCheck (runE (initPlugin key) tr) = Except.ok () := by
  have hai : ∃ a, (initPlugin key).ai = some a := by
    cases key with
    | none => simp [initPlugin, emptyEmbedded] at h
    | some k =>
      by_cases hk : k = ""
      · simp [initPlugin, hk, emptyEmbedded] at h
      · exact ⟨k, by simp [initPlugin, hk]⟩
  obtain ⟨a, ha⟩ := hai
  have hfin : (runE (initPlugin key) tr).ai = some a := (runE_ai _ tr).trans ha
  exact ⟨by simp [hfin], by simp [aiInitCheck, hfin]⟩

/-- Witness for C10: with the key "KEY" configured, after an invocation and
its timer fire the initialization guard still passes. -/
theorem c10_provider_ai_initialized_witness :
    aiInitCheck (runE (initPlugin (some "KEY"))
      [ .invoke "function greet(name) \x7b", .fireTimer ]) = Except.ok () :=
  (c10_provider_ai_initialized (some "KEY")
    [ .invoke "function greet(name) \x7b", .fireTimer ] (by decide)).2

end Autocomplete
